import Mathlib

/-!
Verification of the SPI back-ends in `SdSpi.h` (Arduino SdSpi library,
TFT_SdFat fork).

The AVR SPI peripheral is modelled functionally: writing the data register
`SPDR` starts a byte transfer, clocking the written byte out on MOSI and
shifting a byte in from MISO.  The environment is a fixed stream
`miso : Nat → Nat` giving the byte shifted in during the t-th transfer
(counting from 0).  The state records how many transfers have been started
and the log of bytes clocked out on MOSI.  Spinning on the `SPIF` flag, the
single `nop`, and the calibrated 8-cycle inline-asm delay of the pipelined
receive loop are all timing devices whose sole effect is that the pending
transfer has completed before `SPDR` is next read; in this functional model
a read of `SPDR` therefore returns the byte shifted in by the most recently
started transfer.  Bytes are `Nat`s; the code only ever stores 8-bit values.
-/

set_option maxRecDepth 8000

/-- State of the SPI shift register seen through `SPDR`/`SPSR`:
the number of byte transfers started so far and the log of bytes that
have been clocked out on MOSI, in order. -/
@[ext]
structure SpiState where
  started : Nat
  mosi : List Nat
deriving DecidableEq, Repr

/-- `SPDR = b`: starts a transfer, clocking `b` out on MOSI. -/
def writeSPDR (b : Nat) (s : SpiState) : SpiState :=
  { started := s.started + 1, mosi := s.mosi ++ [b] }

/-- Reading `SPDR` once the pending transfer has completed (after the
`SPIF` spin or the calibrated delay) yields the byte shifted in during the
most recently started transfer. -/
def readSPDR (miso : Nat → Nat) (s : SpiState) : Nat :=
  miso (s.started - 1)

/-! ## SdSpi (register-level back-end), `SdSpi.h` lines 313-376 -/

/-- The rate-selection loop of `SdSpi::init` (line 318):
`for (; divisor > b && r < 7; b <<= 1, r += r < 5 ? 1 : 2) {}`.
`b` is a `uint8_t`, hence the `% 256` on the left shift.  Returns the final
`(b, r)`. -/
def initLoop (divisor b r : Nat) : Nat × Nat :=
  if h : divisor > b ∧ r < 7 then
    initLoop divisor (b * 2 % 256) (r + if r < 5 then 1 else 2)
  else
    (b, r)
termination_by 7 - r
decreasing_by
  obtain ⟨-, h2⟩ := h
  split <;> omega

/-- Fuel-indexed version of `initLoop`, used only so that concrete values
can be computed by the kernel (`initLoop` uses well-founded recursion,
which does not reduce definitionally).  `initLoopF_eq` shows 7 units of
fuel always suffice. -/
def initLoopF : Nat → Nat → Nat → Nat → Nat × Nat
  | 0, _, b, r => (b, r)
  | g + 1, divisor, b, r =>
    if divisor > b ∧ r < 7 then
      initLoopF g divisor (b * 2 % 256) (r + if r < 5 then 1 else 2)
    else
      (b, r)

/-- The encoded rate `r` computed by `SdSpi::init(divisor)`. -/
def sdSpi_init_r (divisor : Nat) : Nat :=
  (initLoop divisor 2 0).2

/-- The value `SdSpi::init` writes to `SPCR` (line 319):
`(1 << SPE) | (1 << MSTR) | (r >> 1)`.  The bit positions `SPE = 6` and
`MSTR = 4` are the AVR hardware constants (from the processor headers,
which are not part of this repository's sources). -/
def sdSpi_init_SPCR (divisor : Nat) : Nat :=
  (1 <<< 6) ||| (1 <<< 4) ||| (sdSpi_init_r divisor >>> 1)

/-- The value `SdSpi::init` writes to `SPSR` (line 320):
`r & 1 ? 0 : 1 << SPI2X`.  The bit position `SPI2X = 0` is the AVR
hardware constant. -/
def sdSpi_init_SPSR (divisor : Nat) : Nat :=
  if sdSpi_init_r divisor % 2 = 1 then 0 else 1 <<< 0

/-- AVR hardware semantics of the SCK rate bits (AVR datasheet, SPI
clock-rate table; not repository code): `spr` is the two-bit clock-select
field `SPR1:SPR0` held in the low bits of `SPCR`, selecting a base divisor
of 4, 16, 64 or 128; a set `SPI2X` bit in `SPSR` halves it. -/
def avrSckDivisor (spi2x : Bool) (spr : Nat) : Nat :=
  (match spr with
   | 0 => 4
   | 1 => 16
   | 2 => 64
   | _ => 128) / (if spi2x then 2 else 1)

/-- The SCK divisor actually configured by `SdSpi::init(divisor)`: the AVR
divisor determined by the clock-select field written to `SPCR` and the
`SPI2X` bit written to `SPSR`. -/
def sdSpiEffectiveDivisor (divisor : Nat) : Nat :=
  avrSckDivisor (sdSpi_init_SPSR divisor % 2 = 1) (sdSpi_init_SPCR divisor % 4)

/-- `SdSpi::receive()` (lines 324-329): write `0xFF` to `SPDR`, spin on
`SPIF`, read `SPDR`.  Returns the byte and the new state. -/
def sdSpiReceive1 (miso : Nat → Nat) (s : SpiState) : Nat × SpiState :=
  let s1 := writeSPDR 255 s
  (readSPDR miso s1, s1)

/-- The pipelined loop of `SdSpi::receive(buf, n)` (lines 338-345), with
`m` iterations remaining and `i` the current index: snapshot `SPDR`, kick
off the next transfer by writing `0xFF`, store the snapshot into `buf[i]`,
burn the 8-cycle delay.  Stores are returned as `(index, byte)` pairs in
program order. -/
def receiveLoop (miso : Nat → Nat) : Nat → Nat → SpiState → List (Nat × Nat) × SpiState
  | 0, _, s => ([], s)
  | m + 1, i, s =>
    let b := readSPDR miso s
    let s1 := writeSPDR 255 s
    let (rest, s2) := receiveLoop miso m (i + 1) s1
    ((i, b) :: rest, s2)

/-- `SdSpi::receive(buf, n)` (lines 332-349).  `if (n-- == 0) return 0;`
then the first transfer, the pipelined loop over the decremented count,
and the final post-loop store `buf[n] = SPDR`.  Returns the error code,
the list of `(index, byte)` stores into `buf`, and the final state. -/
def sdSpiReceiveN (miso : Nat → Nat) (n : Nat) (s : SpiState) :
    Nat × List (Nat × Nat) × SpiState :=
  if n = 0 then
    (0, [], s)
  else
    let m := n - 1
    let s1 := writeSPDR 255 s
    let pre := receiveLoop miso m 0 s1
    (0, pre.1 ++ [(m, readSPDR miso pre.2)], pre.2)

/-- `n` back-to-back invocations of the single-byte `SdSpi::receive()`,
returning the received bytes in order. -/
def receiveRep (miso : Nat → Nat) : Nat → SpiState → List Nat × SpiState
  | 0, s => ([], s)
  | n + 1, s =>
    let (b, s1) := sdSpiReceive1 miso s
    let (rest, s2) := receiveRep miso n s1
    (b :: rest, s2)

/-- `SdSpi::send(data)` (lines 352-356): write `data` to `SPDR`, spin on
`SPIF`. -/
def sdSpiSend1 (data : Nat) (s : SpiState) : SpiState :=
  writeSPDR data s

/-- The `while (1)` loop of `SdSpi::send(buf, n)` (lines 366-373), entered
with `i = 2` and `b = buf[1]` when `n > 1`: spin on `SPIF`, write `b` to
`SPDR`, break when `i == n`, else advance `b = buf[i++]`.  The loop is
only ever entered with `i ≤ n`, so the exit test `i == n` is modelled as
`¬ i < n`. -/
def sendLoop (buf : Nat → Nat) (n : Nat) (i : Nat) (b : Nat) (s : SpiState) : SpiState :=
  if h : i < n then
    sendLoop buf n (i + 1) (buf i) (writeSPDR b s)
  else
    writeSPDR b s
termination_by n - i
decreasing_by omega

/-- `SdSpi::send(buf, n)` (lines 358-376): return at once for `n == 0`,
write `buf[0]`, and for `n > 1` run the pipelined loop from `i = 2` with
`b = buf[1]`; the trailing `SPIF` spin has no modelled effect. -/
def sdSpiSendN (buf : Nat → Nat) (n : Nat) (s : SpiState) : SpiState :=
  if n = 0 then
    s
  else
    let s1 := writeSPDR (buf 0) s
    if 1 < n then sendLoop buf n 2 (buf 1) s1 else s1

/-- `k` back-to-back invocations of the single-byte `SdSpi::send(buf[i])`,
starting at index `i`. -/
def sendRepFrom (buf : Nat → Nat) : Nat → Nat → SpiState → SpiState
  | 0, _, s => s
  | k + 1, i, s => sendRepFrom buf k (i + 1) (sdSpiSend1 (buf i) s)

/-- `n` back-to-back invocations of `SdSpi::send(buf[i])` for
`i = 0 .. n-1`. -/
def sendRep (buf : Nat → Nat) (n : Nat) (s : SpiState) : SpiState :=
  sendRepFrom buf n 0 s

/-- `SdSpi::useSpiTransactions()` (lines 113-115). -/
def sdSpi_useSpiTransactions : Bool := true

/-! ## SdSpiLib (Arduino SPI library back-end), `SdSpi.h` lines 123-207.
`SPI.transfer(b)` performs one blocking byte transfer: `b` is clocked out
on MOSI and the byte shifted in on MISO is returned. -/

/-- The platform library's blocking `SPI.transfer(b)`: one transfer of the
same SPI shift register. -/
def spiTransfer (miso : Nat → Nat) (b : Nat) (s : SpiState) : Nat × SpiState :=
  (miso s.started, writeSPDR b s)

/-- The argument `SdSpiLib::init` passes to `SPI.setClockDivider`: either
the raw integer divisor (when the platform does not define the
`SPI_CLOCK_DIVn` enumeration) or one of the enumeration constants,
identified here by its nominal divisor. -/
inductive ClockDividerArg where
  | raw : Nat → ClockDividerArg
  | divConst : Nat → ClockDividerArg
deriving DecidableEq, Repr

/-- The divider-constant selection chain of `SdSpiLib::init`
(lines 147-162): the `SPI_CLOCK_DIVn` constant chosen for a requested
divisor, identified by its nominal divisor `n ∈ {2,4,8,16,32,64,128}`. -/
def sdSpiLibDivisor (divisor : Nat) : Nat :=
  if divisor ≤ 2 then 2
  else if divisor ≤ 4 then 4
  else if divisor ≤ 8 then 8
  else if divisor ≤ 16 then 16
  else if divisor ≤ 32 then 32
  else if divisor ≤ 64 then 64
  else 128

/-- `SdSpiLib::init(divisor)` (lines 141-165), restricted to its clock
configuration: the value passed to `SPI.setClockDivider`.  `hasDiv128`
states whether the platform defines `SPI_CLOCK_DIV128` (the
`#ifndef SPI_CLOCK_DIV128` branch forwards the integer unchanged; the
`#else` branch runs the selection chain). -/
def sdSpiLib_initClockArg (hasDiv128 : Bool) (divisor : Nat) : ClockDividerArg :=
  if hasDiv128 then ClockDividerArg.divConst (sdSpiLibDivisor divisor)
  else ClockDividerArg.raw divisor

/-- The loop of `SdSpiLib::receive(buf, n)` (lines 181-183):
`buf[i] = SPI.transfer(0xFF)` for `i = 0 .. n-1`; `m` iterations remain
and `i` is the current index. -/
def sdSpiLibReceiveLoop (miso : Nat → Nat) : Nat → Nat → SpiState → List (Nat × Nat) × SpiState
  | 0, _, s => ([], s)
  | m + 1, i, s =>
    let (b, s1) := spiTransfer miso 255 s
    let (rest, s2) := sdSpiLibReceiveLoop miso m (i + 1) s1
    ((i, b) :: rest, s2)

/-- `SdSpiLib::receive(buf, n)` (lines 180-185): the loop, then
`return 0`. -/
def sdSpiLibReceiveN (miso : Nat → Nat) (n : Nat) (s : SpiState) :
    Nat × List (Nat × Nat) × SpiState :=
  (0, sdSpiLibReceiveLoop miso n 0 s)

/-- The loop of `SdSpiLib::send(buf, n)` (lines 199-201):
`SPI.transfer(buf[i])` for `i = 0 .. n-1`, the returned byte discarded. -/
def sdSpiLibSendLoop (buf : Nat → Nat) : Nat → Nat → SpiState → SpiState
  | 0, _, s => s
  | k + 1, i, s => sdSpiLibSendLoop buf k (i + 1) (writeSPDR (buf i) s)

/-- `SdSpiLib::send(buf, n)` (lines 198-202). -/
def sdSpiLibSendN (buf : Nat → Nat) (n : Nat) (s : SpiState) : SpiState :=
  sdSpiLibSendLoop buf n 0 s

/-- `SdSpiLib::useSpiTransactions()` (lines 204-206). -/
def sdSpiLib_useSpiTransactions : Bool := true

/-! ## SdSpiSoft (bit-banged back-end), `SdSpi.h` lines 216-274 -/

/-- Modelled from the spec: `SdSpiSoft::receive()` delegates to
`m_spi.receive()` of `utility/SoftSPI.h`, which is not among the sources.
Per the spec (SoftwareSpi), `receive()` transmits the dummy byte `0xFF`
and returns the byte sampled on the MISO pin; it is modelled as one
transfer of the same functional SPI model. -/
def sdSpiSoftReceive1 (miso : Nat → Nat) (s : SpiState) : Nat × SpiState :=
  (miso s.started, writeSPDR 255 s)

/-- The loop of `SdSpiSoft::receive(buf, n)` (lines 245-247):
`buf[i] = receive()` for `i = 0 .. n-1`. -/
def sdSpiSoftReceiveLoop (miso : Nat → Nat) : Nat → Nat → SpiState → List (Nat × Nat) × SpiState
  | 0, _, s => ([], s)
  | m + 1, i, s =>
    let (b, s1) := sdSpiSoftReceive1 miso s
    let (rest, s2) := sdSpiSoftReceiveLoop miso m (i + 1) s1
    ((i, b) :: rest, s2)

/-- `SdSpiSoft::receive(buf, n)` (lines 244-249): the loop, then
`return 0`. -/
def sdSpiSoftReceiveN (miso : Nat → Nat) (n : Nat) (s : SpiState) :
    Nat × List (Nat × Nat) × SpiState :=
  (0, sdSpiSoftReceiveLoop miso n 0 s)

/-- `SdSpiSoft::useSpiTransactions()` (lines 268-270). -/
def sdSpiSoft_useSpiTransactions : Bool := false

/-! ## Spec-side definitions (for refinement comparison) -/

/-- The spec's rate-selection contract for `SdSpi::init` and the
full-ladder `SdSpiLib::init`: the smallest supported SCK divisor in
`{2,4,8,16,32,64,128}` that is `≥ d`, saturating at 128. -/
def specSmallestSupportedDivisor (d : Nat) : Nat :=
  if d ≤ 2 then 2
  else if d ≤ 4 then 4
  else if d ≤ 8 then 8
  else if d ≤ 16 then 16
  else if d ≤ 32 then 32
  else if d ≤ 64 then 64
  else 128

/-! ## Helper lemmas -/

theorem initLoopF_eq (g : Nat) : ∀ divisor b r, 7 - r ≤ g →
    initLoopF g divisor b r = initLoop divisor b r := by
  induction g with
  | zero =>
    intro divisor b r h
    rw [initLoop]
    rw [dif_neg (by omega : ¬(divisor > b ∧ r < 7))]
    rfl
  | succ g ih =>
    intro divisor b r h
    rw [initLoop]
    simp only [initLoopF]
    by_cases hc : divisor > b ∧ r < 7
    · rw [dif_pos hc, if_pos hc]
      refine ih _ _ _ ?_
      have := hc.2
      split <;> omega
    · rw [dif_neg hc, if_neg hc]

theorem sdSpi_init_r_eq (d : Nat) : sdSpi_init_r d = (initLoopF 7 d 2 0).2 := by
  unfold sdSpi_init_r
  rw [initLoopF_eq 7 d 2 0 (by omega)]

theorem receiveLoop_eq (miso : Nat → Nat) : ∀ m i t ms,
    receiveLoop miso m i ⟨t + 1, ms⟩ =
      ((List.range m).map (fun j => (i + j, miso (t + j))),
       ⟨t + 1 + m, ms ++ List.replicate m 255⟩) := by
  intro m
  induction m with
  | zero => simp [receiveLoop]
  | succ m ih =>
    intro i t ms
    simp only [receiveLoop, writeSPDR, readSPDR]
    rw [show t + 1 + 1 = (t + 1) + 1 from rfl]
    rw [ih (i + 1) (t + 1) (ms ++ [255])]
    simp only [Prod.mk.injEq, SpiState.mk.injEq]
    refine ⟨?_, by omega, by simp [List.replicate_succ]⟩
    rw [List.range_succ_eq_map, List.map_cons, List.map_map]
    simp only [Nat.add_zero, Nat.add_sub_cancel]
    refine congrArg₂ List.cons rfl ?_
    refine List.map_congr_left ?_
    intro j _
    simp only [Function.comp_apply, Prod.mk.injEq]
    exact ⟨by omega, congrArg miso (by omega)⟩

theorem receiveRep_eq (miso : Nat → Nat) : ∀ n s,
    receiveRep miso n s =
      ((List.range n).map (fun j => miso (s.started + j)),
       ⟨s.started + n, s.mosi ++ List.replicate n 255⟩) := by
  intro n
  induction n with
  | zero => intro s; simp [receiveRep]
  | succ n ih =>
    intro s
    simp only [receiveRep, sdSpiReceive1, writeSPDR, readSPDR]
    rw [ih ⟨s.started + 1, s.mosi ++ [255]⟩]
    simp only [Prod.mk.injEq, SpiState.mk.injEq, Nat.add_sub_cancel]
    refine ⟨?_, by omega, by simp [List.replicate_succ]⟩
    rw [List.range_succ_eq_map, List.map_cons, List.map_map]
    simp only [Nat.add_zero]
    refine congrArg₂ List.cons rfl ?_
    refine List.map_congr_left ?_
    intro j _
    exact congrArg miso (by omega)

theorem sendLoop_eq (buf : Nat → Nat) (n : Nat) : ∀ k i b s, i + k = n →
    sendLoop buf n i b s =
      ⟨s.started + k + 1,
       s.mosi ++ b :: (List.range k).map (fun j => buf (i + j))⟩ := by
  intro k
  induction k with
  | zero =>
    intro i b s h
    rw [sendLoop, dif_neg (by omega : ¬ i < n)]
    simp [writeSPDR]
  | succ k ih =>
    intro i b s h
    rw [sendLoop, dif_pos (by omega : i < n)]
    rw [ih (i + 1) (buf i) (writeSPDR b s) (by omega)]
    simp only [writeSPDR, SpiState.mk.injEq]
    refine ⟨by omega, ?_⟩
    rw [List.range_succ_eq_map, List.map_cons, List.map_map]
    simp only [Nat.add_zero, List.append_assoc, List.cons_append, List.nil_append]
    refine congrArg _ (congrArg _ (congrArg₂ List.cons rfl ?_))
    refine List.map_congr_left ?_
    intro j _
    exact congrArg buf (by omega)

theorem sendRepFrom_eq (buf : Nat → Nat) : ∀ k i s,
    sendRepFrom buf k i s =
      ⟨s.started + k, s.mosi ++ (List.range k).map (fun j => buf (i + j))⟩ := by
  intro k
  induction k with
  | zero => intro i s; simp [sendRepFrom]
  | succ k ih =>
    intro i s
    simp only [sendRepFrom, sdSpiSend1, writeSPDR]
    rw [ih (i + 1) ⟨s.started + 1, s.mosi ++ [buf i]⟩]
    simp only [SpiState.mk.injEq]
    refine ⟨by omega, ?_⟩
    rw [List.range_succ_eq_map, List.map_cons, List.map_map]
    simp only [Nat.add_zero, List.append_assoc, List.cons_append, List.nil_append]
    refine congrArg _ (congrArg₂ List.cons rfl ?_)
    refine List.map_congr_left ?_
    intro j _
    exact congrArg buf (by omega)

/-! ## Claim theorems -/

/-- Claim C1: for every `n ≤ 512` and every sequence of bytes arriving on
MISO, the pipelined `SdSpi::receive(buf, n)` stores into `buf` exactly the
same `n` bytes, in the same order, as `n` back-to-back invocations of the
single-byte `SdSpi::receive()` (including the same final bus state), each
transfer clocking out the dummy byte `0xFF` on MOSI. -/
theorem sdSpi_receiveN_equiv_rep (miso : Nat → Nat) (n : Nat) (s : SpiState)
    (h : n ≤ 512) :
    (sdSpiReceiveN miso n s).2.1.map Prod.snd = (receiveRep miso n s).1 ∧
    (sdSpiReceiveN miso n s).2.2 = (receiveRep miso n s).2 ∧
    (sdSpiReceiveN miso n s).2.2.mosi = s.mosi ++ List.replicate n 255 := by
  match n with
  | 0 => simp [sdSpiReceiveN, receiveRep]
  | Nat.succ m =>
    rw [receiveRep_eq]
    simp only [sdSpiReceiveN, writeSPDR, Nat.succ_ne_zero, if_false, Nat.succ_sub_one]
    rw [receiveLoop_eq miso m 0 s.started (s.mosi ++ [255])]
    simp only [readSPDR]
    have harg : s.started + 1 + m - 1 = s.started + m := by omega
    rw [harg]
    refine ⟨?_, ?_, ?_⟩
    · rw [List.map_append, List.map_map, List.range_succ, List.map_append]
      simp
    · simp [SpiState.ext_iff, List.replicate_succ, Nat.add_comm, Nat.add_assoc,
        Nat.add_left_comm]
    · simp [List.replicate_succ]

/-- Witness for C1 at `n = 3`. -/
theorem sdSpi_receiveN_equiv_rep_witness :
    (sdSpiReceiveN (fun t => t) 3 ⟨0, []⟩).2.1.map Prod.snd =
      (receiveRep (fun t => t) 3 ⟨0, []⟩).1 ∧
    (sdSpiReceiveN (fun t => t) 3 ⟨0, []⟩).2.2 = (receiveRep (fun t => t) 3 ⟨0, []⟩).2 ∧
    (sdSpiReceiveN (fun t => t) 3 ⟨0, []⟩).2.2.mosi = [] ++ List.replicate 3 255 :=
  sdSpi_receiveN_equiv_rep (fun t => t) 3 ⟨0, []⟩ (by decide)

/-- Claim C10: for every `n ≥ 1`, `SdSpi::receive(buf, n)` writes exactly
the buffer indices `0` through `n-1`, in that order, and no others. -/
theorem sdSpi_receiveN_store_indices (miso : Nat → Nat) (n : Nat) (s : SpiState)
    (h : 1 ≤ n) :
    (sdSpiReceiveN miso n s).2.1.map Prod.fst = List.range n := by
  match n with
  | Nat.succ m =>
    simp only [sdSpiReceiveN, writeSPDR, Nat.succ_ne_zero, if_false, Nat.succ_sub_one]
    rw [receiveLoop_eq miso m 0 s.started (s.mosi ++ [255])]
    rw [List.map_append, List.map_map, List.range_succ]
    rw [show (Prod.fst ∘ fun j : Nat => (0 + j, miso (s.started + j)))
        = fun j : Nat => 0 + j from rfl]
    simp

/-- Witness for C10 at `n = 4`. -/
theorem sdSpi_receiveN_store_indices_witness :
    (sdSpiReceiveN (fun t => t) 4 ⟨0, []⟩).2.1.map Prod.fst = List.range 4 :=
  sdSpi_receiveN_store_indices (fun t => t) 4 ⟨0, []⟩ (by decide)

/-- Claim C2: for every `n ≤ 512` and every buffer, the pipelined
`SdSpi::send(buf, n)` clocks out exactly `buf[0], ..., buf[n-1]` on MOSI,
in order, and is identical (as a bus history) to `n` back-to-back
invocations of the single-byte `SdSpi::send(buf[i])`. -/
theorem sdSpi_sendN_equiv_rep (buf : Nat → Nat) (n : Nat) (s : SpiState)
    (h : n ≤ 512) :
    (sdSpiSendN buf n s).mosi = s.mosi ++ (List.range n).map buf ∧
    sdSpiSendN buf n s = sendRep buf n s := by
  have hrep : sendRep buf n s = ⟨s.started + n, s.mosi ++ (List.range n).map buf⟩ := by
    unfold sendRep
    rw [sendRepFrom_eq]
    simp
  have key : sdSpiSendN buf n s = ⟨s.started + n, s.mosi ++ (List.range n).map buf⟩ := by
    match n with
    | 0 => simp [sdSpiSendN]
    | 1 => simp [sdSpiSendN, writeSPDR, SpiState.ext_iff, List.range_succ]
    | Nat.succ (Nat.succ m) =>
      simp only [Nat.succ_eq_add_one, sdSpiSendN, writeSPDR]
      rw [if_neg (by omega : ¬ (m + 1 + 1 = 0)), if_pos (by omega : 1 < m + 1 + 1)]
      rw [sendLoop_eq buf (m + 1 + 1) m 2 (buf 1)
        ⟨s.started + 1, s.mosi ++ [buf 0]⟩ (by omega)]
      simp only [SpiState.mk.injEq]
      refine ⟨by omega, ?_⟩
      rw [show m + 1 + 1 = 2 + m by omega, List.range_add, List.map_append, List.map_map]
      rw [show (List.range 2).map buf = [buf 0, buf 1] from rfl]
      simp [Function.comp]
  exact ⟨by rw [key], key.trans hrep.symm⟩

/-- Witness for C2 at `n = 3`. -/
theorem sdSpi_sendN_equiv_rep_witness :
    (sdSpiSendN (fun i => i + 10) 3 ⟨0, []⟩).mosi =
      [] ++ (List.range 3).map (fun i => i + 10) ∧
    sdSpiSendN (fun i => i + 10) 3 ⟨0, []⟩ = sendRep (fun i => i + 10) 3 ⟨0, []⟩ :=
  sdSpi_sendN_equiv_rep (fun i => i + 10) 3 ⟨0, []⟩ (by decide)

/-- The SCK divisor configured by `SdSpi::init(d)` equals, for every 8-bit
`d`, the smallest supported divisor that is `≥ d` (saturating at 128). -/
theorem sdSpiEffectiveDivisor_spec (d : Nat) (hd : d < 256) :
    sdSpiEffectiveDivisor d = specSmallestSupportedDivisor d := by
  simp only [sdSpiEffectiveDivisor, sdSpi_init_SPSR, sdSpi_init_SPCR, sdSpi_init_r_eq]
  revert d hd
  decide

/-- Claim C3: for every requested divisor `d`, `SdSpi::init(d)` selects the
smallest supported SCK divisor `≥ d` from `{2,4,8,16,32,64,128}`, saturating
at 128; with a 16 MHz CPU clock, `init(1)` and `init(2)` give SCK = 8 MHz,
`init(3)` gives 4 MHz, `init(128)` and `init(129)` give 125 kHz. -/
theorem sdSpi_init_divisor_mapping (d : Nat) (hd : d < 256) :
    sdSpiEffectiveDivisor d = specSmallestSupportedDivisor d ∧
    16000000 / sdSpiEffectiveDivisor 1 = 8000000 ∧
    16000000 / sdSpiEffectiveDivisor 2 = 8000000 ∧
    16000000 / sdSpiEffectiveDivisor 3 = 4000000 ∧
    16000000 / sdSpiEffectiveDivisor 128 = 125000 ∧
    16000000 / sdSpiEffectiveDivisor 129 = 125000 := by
  refine ⟨sdSpiEffectiveDivisor_spec d hd, ?_, ?_, ?_, ?_, ?_⟩ <;>
    (rw [sdSpiEffectiveDivisor_spec _ (by omega)]; decide)

/-- Witness for C3 at `d = 5`. -/
theorem sdSpi_init_divisor_mapping_witness :
    sdSpiEffectiveDivisor 5 = specSmallestSupportedDivisor 5 ∧
    16000000 / sdSpiEffectiveDivisor 1 = 8000000 ∧
    16000000 / sdSpiEffectiveDivisor 2 = 8000000 ∧
    16000000 / sdSpiEffectiveDivisor 3 = 4000000 ∧
    16000000 / sdSpiEffectiveDivisor 128 = 125000 ∧
    16000000 / sdSpiEffectiveDivisor 129 = 125000 :=
  sdSpi_init_divisor_mapping 5 (by decide)

/-- Counterexample to claim C4 at `d = 1`: the configured SCK period is
2 CPU periods, which is not `< 2·1`. -/
theorem sdSpi_period_bounds_cex :
    ¬ (1 ≤ sdSpiEffectiveDivisor 1 ∧ sdSpiEffectiveDivisor 1 < 2 * 1) := by
  simp only [sdSpiEffectiveDivisor, sdSpi_init_SPSR, sdSpi_init_SPCR, sdSpi_init_r_eq]
  decide

/-- Claim C4 as amended: for every `d ∈ {2..128}` the configured SCK
period is at least `d` CPU periods and strictly less than `2d` CPU
periods, for both the register back-end (`SdSpi::init`) and the library
back-end with the full power-of-two divider ladder (`SdSpiLib::init`).
(The original range `{1..255}` fails at `d = 1`, where the period is
`2 = 2d`, and at `d ≥ 129`, where the period saturates at `128 < d`.) -/
theorem sdSpi_period_bounds (d : Nat) (h1 : d ≤ 128) (h2 : 2 ≤ d) :
    (d ≤ sdSpiEffectiveDivisor d ∧ sdSpiEffectiveDivisor d < 2 * d) ∧
    (d ≤ sdSpiLibDivisor d ∧ sdSpiLibDivisor d < 2 * d) := by
  simp only [sdSpiEffectiveDivisor, sdSpi_init_SPSR, sdSpi_init_SPCR, sdSpi_init_r_eq]
  revert d h1 h2
  decide

/-- Witness for the amended C4 at `d = 7`. -/
theorem sdSpi_period_bounds_witness :
    (7 ≤ sdSpiEffectiveDivisor 7 ∧ sdSpiEffectiveDivisor 7 < 2 * 7) ∧
    (7 ≤ sdSpiLibDivisor 7 ∧ sdSpiLibDivisor 7 < 2 * 7) :=
  sdSpi_period_bounds 7 (by decide) (by decide)

/-- Counterexample to claim C5 at `d = 33`: the computed encoded rate is
`r = 5`, which is not in the claimed set `{0,1,2,3,4,6,7}`. -/
theorem sdSpi_init_rate_encoding_cex :
    sdSpi_init_r 33 = 5 ∧
    ¬ (sdSpi_init_r 33 = 0 ∨ sdSpi_init_r 33 = 1 ∨ sdSpi_init_r 33 = 2 ∨
       sdSpi_init_r 33 = 3 ∨ sdSpi_init_r 33 = 4 ∨ sdSpi_init_r 33 = 6 ∨
       sdSpi_init_r 33 = 7) := by
  rw [sdSpi_init_r_eq]
  decide

/-- Claim C5 as amended: for every requested divisor `d`, the encoded rate
`r` computed by `SdSpi::init` lies in `{0,1,2,3,4,5,7}`, with
`r ∈ {0,1,2,3,4,5}` corresponding to divisors `{2,4,8,16,32,64}` (divisor
`2^(r+1)`) and `r = 7` to 128; the chosen `r` is split so that its top two
bits are written to `SPCR`'s clock-select field and its low bit, inverted,
is written to `SPSR`'s `SPI2X` doubling bit (`r` even implies the doubled
clock is active). -/
theorem sdSpi_init_rate_encoding (d : Nat) (hd : d < 256) :
    (sdSpi_init_r d = 0 ∨ sdSpi_init_r d = 1 ∨ sdSpi_init_r d = 2 ∨
     sdSpi_init_r d = 3 ∨ sdSpi_init_r d = 4 ∨ sdSpi_init_r d = 5 ∨
     sdSpi_init_r d = 7) ∧
    (sdSpi_init_r d ≤ 5 → sdSpiEffectiveDivisor d = 2 ^ (sdSpi_init_r d + 1)) ∧
    (sdSpi_init_r d = 7 → sdSpiEffectiveDivisor d = 128) ∧
    sdSpi_init_SPCR d % 4 = sdSpi_init_r d >>> 1 ∧
    sdSpi_init_SPSR d = (if sdSpi_init_r d % 2 = 1 then 0 else 1) ∧
    (sdSpi_init_r d % 2 = 0 → sdSpi_init_SPSR d % 2 = 1) := by
  simp only [sdSpiEffectiveDivisor, sdSpi_init_SPSR, sdSpi_init_SPCR, sdSpi_init_r_eq]
  revert d hd
  decide

/-- Witness for the amended C5 at `d = 33`. -/
theorem sdSpi_init_rate_encoding_witness :
    (sdSpi_init_r 33 = 0 ∨ sdSpi_init_r 33 = 1 ∨ sdSpi_init_r 33 = 2 ∨
     sdSpi_init_r 33 = 3 ∨ sdSpi_init_r 33 = 4 ∨ sdSpi_init_r 33 = 5 ∨
     sdSpi_init_r 33 = 7) ∧
    (sdSpi_init_r 33 ≤ 5 → sdSpiEffectiveDivisor 33 = 2 ^ (sdSpi_init_r 33 + 1)) ∧
    (sdSpi_init_r 33 = 7 → sdSpiEffectiveDivisor 33 = 128) ∧
    sdSpi_init_SPCR 33 % 4 = sdSpi_init_r 33 >>> 1 ∧
    sdSpi_init_SPSR 33 = (if sdSpi_init_r 33 % 2 = 1 then 0 else 1) ∧
    (sdSpi_init_r 33 % 2 = 0 → sdSpi_init_SPSR 33 % 2 = 1) :=
  sdSpi_init_rate_encoding 33 (by decide)

/-- Claim C6: for `n = 0` the multi-byte operations are no-ops on the bus:
`SdSpi::send(buf, 0)` and `SdSpi::receive(buf, 0)` return (the latter with
code zero) without starting any transfer, and the `SdSpiLib` multi-byte
variants likewise perform no transfer. -/
theorem multibyte_zero_length_noop (miso buf : Nat → Nat) (s : SpiState) :
    sdSpiSendN buf 0 s = s ∧
    sdSpiReceiveN miso 0 s = (0, [], s) ∧
    sdSpiLibSendN buf 0 s = s ∧
    sdSpiLibReceiveN miso 0 s = (0, [], s) :=
  ⟨rfl, rfl, rfl, rfl⟩

/-- Claim C7: for every buffer and length, the multi-byte `receive` of each
of the three back-ends returns zero; the nonzero transfer-error code is
never produced. -/
theorem multibyte_receive_code_zero (miso : Nat → Nat) (n : Nat) (s : SpiState) :
    (sdSpiReceiveN miso n s).1 = 0 ∧
    (sdSpiLibReceiveN miso n s).1 = 0 ∧
    (sdSpiSoftReceiveN miso n s).1 = 0 := by
  refine ⟨?_, rfl, rfl⟩
  unfold sdSpiReceiveN
  split <;> rfl

/-- Claim C8: the transaction-capability query returns `true` for the
register back-end (`SdSpi`), `true` for the library back-end (`SdSpiLib`),
and `false` for the software back-end (`SdSpiSoft`). -/
theorem useSpiTransactions_values :
    sdSpi_useSpiTransactions = true ∧
    sdSpiLib_useSpiTransactions = true ∧
    sdSpiSoft_useSpiTransactions = false :=
  ⟨rfl, rfl, rfl⟩

/-- Claim C9: when the platform does not define `SPI_CLOCK_DIV128`,
`SdSpiLib::init(d)` forwards the integer `d` unchanged to
`SPI.setClockDivider`; the power-of-two mapping is applied only when the
enumeration exists, in which case every `d > 64` maps to
`SPI_CLOCK_DIV128`. -/
theorem sdSpiLib_init_clock_mapping (d : Nat) (hd : d < 256) :
    sdSpiLib_initClockArg false d = ClockDividerArg.raw d ∧
    (64 < d → sdSpiLib_initClockArg true d = ClockDividerArg.divConst 128) := by
  refine ⟨rfl, fun h64 => ?_⟩
  simp only [sdSpiLib_initClockArg, if_pos]
  unfold sdSpiLibDivisor
  split_ifs <;> first | rfl | omega

/-- Witness for C9 at `d = 100`. -/
theorem sdSpiLib_init_clock_mapping_witness :
    sdSpiLib_initClockArg false 100 = ClockDividerArg.raw 100 ∧
    (64 < 100 → sdSpiLib_initClockArg true 100 = ClockDividerArg.divConst 128) :=
  sdSpiLib_init_clock_mapping 100 (by decide)
